import Mathlib

/-!
Shallow embedding of `src/utils/mcp-server.ts` from the mcp-manager
Raycast extension: the server-registry CRUD operations, the liveness
prober `checkServerStatus`, and the lifecycle operations `startServer`,
`stopServer` and `restartServer`.

Modelling conventions:
* The JSON config object `config.mcpServers` is an association list with
  unique, insertion-ordered keys (JavaScript object semantics: assignment
  to an existing key overwrites in place, assignment to a fresh key
  appends, `delete` removes the key).
* Effectful TypeScript is modelled as pure functions.  OS observations
  (the `exec` calls of `ps aux | grep …` and `lsof -i :port`) are an
  explicit oracle `Env`; a probe at a later point in time takes its own
  `Env`.  A thrown `Error` is `Except.error` carrying the message.
* Lifecycle operations additionally return an ordered trace of the
  side effects they perform (`exec` launches, `pkill` signals, settle
  delays, probes, `updateServer` persistence calls, toasts), so that
  ordering and counting claims can be stated.
* Strings are treated at ASCII granularity (`toLowerCase`, `\s`, `\d`
  modelled on their ASCII behaviour), which covers every input the
  claims mention.
-/

/-- Server status, the `"online" | "offline"` union type. -/
inductive Status where
  | online
  | offline
deriving DecidableEq, Repr

/-- The persisted wire shape of one registry entry:
`{ "command": string, "args": [string] }`. -/
structure ConfigEntry where
  command : String
  args : List String
deriving DecidableEq, Repr

/-- The config document `{ "mcpServers": { id ↦ entry } }`, a JavaScript
object modelled as a key-unique, insertion-ordered association list. -/
structure MCPServerConfig where
  mcpServers : List (String × ConfigEntry)
deriving DecidableEq, Repr

/-- The in-memory `MCPServer` record (the `metadata` field is never read
by any of the modelled operations and is omitted). -/
structure MCPServer where
  id : String
  name : String
  command : String
  args : List String
  status : Option Status := none
  lastConnectionTime : Option String := none
deriving DecidableEq, Repr

/-- `obj[key]` on a JavaScript object. -/
def lookupKey : List (String × ConfigEntry) → String → Option ConfigEntry
  | [], _ => none
  | (k, v) :: rest, key => if k = key then some v else lookupKey rest key

/-- `obj[key] = v` on a JavaScript object: overwrite in place if the key
exists, append otherwise. -/
def setKey : List (String × ConfigEntry) → String → ConfigEntry → List (String × ConfigEntry)
  | [], key, v => [(key, v)]
  | (k, w) :: rest, key, v =>
    if k = key then (key, v) :: rest else (k, w) :: setKey rest key v

/-- `delete obj[key]` on a JavaScript object. -/
def eraseKey : List (String × ConfigEntry) → String → List (String × ConfigEntry)
  | [], _ => []
  | (k, w) :: rest, key => if k = key then rest else (k, w) :: eraseKey rest key

/-- `name.toLowerCase().replace(/[^a-z0-9]/g, "-")`, the id/slug
derivation used by `addServer` and `updateServer`. -/
def slugify (name : String) : String :=
  String.mk (name.toList.map (fun c =>
    let lc := c.toLower
    if ('a' ≤ lc ∧ lc ≤ 'z') ∨ ('0' ≤ lc ∧ lc ≤ '9') then lc else '-'))

/-- `MCPServerSchema.parse`: the only constraints that can fail are
`name: z.string().min(1)` and `command: z.string().min(1)`, checked in
field order. -/
def validateServer (server : MCPServer) : Except String Unit :=
  if server.name = "" then Except.error "Server name is required"
  else if server.command = "" then Except.error "Command is required"
  else Except.ok ()

/-- `addServer` (lines 81–106): slugify the name, validate, reject a
duplicate id, otherwise store `{command, args}` under the id.  The
returned config is the document passed to `writeConfigFile`; on
`Except.error` the original document was never mutated nor written. -/
def addServer (config : MCPServerConfig) (name command : String) (args : List String) :
    Except String (MCPServer × MCPServerConfig) :=
  let serverWithId : MCPServer :=
    { id := slugify name, name := name, command := command, args := args,
      status := some Status.offline, lastConnectionTime := none }
  match validateServer serverWithId with
  | Except.error e => Except.error e
  | Except.ok _ =>
    match lookupKey config.mcpServers serverWithId.id with
    | some _ => Except.error ("Server with name \"" ++ name ++ "\" already exists")
    | none =>
      Except.ok (serverWithId,
        ⟨setKey config.mcpServers serverWithId.id ⟨command, args⟩⟩)

/-- `updateServer` (lines 111–144): validate, require the id to exist;
if the name's slug differs from the id (a rename) delete the old entry
and assign under the new slug (overwriting whatever was there), else
assign in place. -/
def updateServer (config : MCPServerConfig) (server : MCPServer) :
    Except String (MCPServer × MCPServerConfig) :=
  match validateServer server with
  | Except.error e => Except.error e
  | Except.ok _ =>
    match lookupKey config.mcpServers server.id with
    | none => Except.error ("Server \"" ++ server.id ++ "\" not found")
    | some _ =>
      if slugify server.name ≠ server.id then
        let newId := slugify server.name
        let afterDelete := eraseKey config.mcpServers server.id
        Except.ok ({ server with id := newId },
          ⟨setKey afterDelete newId ⟨server.command, server.args⟩⟩)
      else
        Except.ok (server,
          ⟨setKey config.mcpServers server.id ⟨server.command, server.args⟩⟩)

/-- `configToServers` (lines 60–68): one record per config key, with
`id = name = key` and `status = "offline"`. -/
def configToServers (config : MCPServerConfig) : List MCPServer :=
  config.mcpServers.map (fun kv =>
    { id := kv.1, name := kv.1, command := kv.2.command, args := kv.2.args,
      status := some Status.offline, lastConnectionTime := none })

/-! ## Liveness prober -/

/-- Result of one `exec` call: `error` is whether the callback received
an error, `stdout` its captured output. -/
structure ExecResult where
  error : Bool
  stdout : String

/-- OS oracle at one instant: `psResult pattern` is the outcome of
`ps aux | grep "pattern" | grep -v grep`, `lsofResult port` the outcome
of `lsof -i :port`. -/
structure Env where
  psResult : String → ExecResult
  lsofResult : String → ExecResult

/-- `stdout.trim()`: strip leading and trailing whitespace. -/
def jsTrim (s : String) : String :=
  String.mk (((s.toList.dropWhile Char.isWhitespace).reverse.dropWhile
    Char.isWhitespace).reverse)

/-- The `!error && stdout.trim()` truthiness test on a ps query. -/
def psHit (env : Env) (pattern : String) : Bool :=
  let r := env.psResult pattern
  !r.error && jsTrim r.stdout != ""

/-- The `!error && stdout.trim()` truthiness test on an lsof query. -/
def lsofHit (env : Env) (port : String) : Bool :=
  let r := env.lsofResult port
  !r.error && jsTrim r.stdout != ""

/-- The characters escaped by
`str.replace(/[.*+?^$\x7b\x7d()|[\]\\]/g, "\\$&")`. -/
def grepSpecials : List Char :=
  ['.', '*', '+', '?', '^', '$', '\x7b', '\x7d', '(', ')', '|', '[', ']', '\\']

/-- `escapeForGrep` applied to one character. -/
def escapeChar (c : Char) : String :=
  if grepSpecials.contains c then String.mk ['\\', c] else String.mk [c]

/-- `escapeForGrep` (line 166). -/
def escapeForGrep (s : String) : String :=
  String.join (s.toList.map escapeChar)

/-- `command.split("/")` on the character list: split at every `/`. -/
def splitSlash : List Char → List (List Char)
  | [] => [[]]
  | c :: rest =>
    if c = '/' then [] :: splitSlash rest
    else
      match splitSlash rest with
      | [] => [[c]]
      | g :: gs => (c :: g) :: gs

/-- `server.command.split("/").pop() || server.command`: the basename,
falling back to the whole command when the last segment is empty. -/
def commandBase (command : String) : String :=
  let lastPart := String.mk ((splitSlash command.toList).getLastD [])
  if lastPart = "" then command else lastPart

/-- The three ps match patterns of `checkServerStatus` (lines 172–176),
in order: escaped full command line, escaped command, escaped basename. -/
def patterns (server : MCPServer) : List String :=
  [escapeForGrep server.command ++ " " ++
     String.intercalate " " (server.args.map escapeForGrep),
   escapeForGrep server.command,
   escapeForGrep (commandBase server.command)]

/-- ASCII model of the JavaScript regex class `\s`. -/
def jsWhitespace (c : Char) : Bool :=
  c == ' ' || c == '\t' || c == '\n' || c == '\x0b' || c == '\x0c' || c == '\r'

/-- `/^\d+$/.test(arg)`: nonempty and all digits. -/
def isAllDigits (s : String) : Bool :=
  !s.isEmpty && s.toList.all Char.isDigit

/-- The greedy `(\d+)` capture, provided at least one digit follows. -/
def portDigits (l : List Char) : Option String :=
  let ds := l.takeWhile Char.isDigit
  if ds.isEmpty then none else some (String.mk ds)

/-- Does `--port[=\s](\d+)` match starting exactly here?  Returns the
captured digits if so. -/
def portMatchAt : List Char → Option String
  | '-' :: '-' :: 'p' :: 'o' :: 'r' :: 't' :: sep :: rest =>
    if sep == '=' || jsWhitespace sep then portDigits rest else none
  | _ => none

/-- Leftmost match of `--port[=\s](\d+)` in a character list. -/
def portMatchAux : List Char → Option String
  | [] => none
  | c :: cs =>
    match portMatchAt (c :: cs) with
    | some p => some p
    | none => portMatchAux cs

/-- The `arg.match` against the `--port[=\s](\d+)` regex, returning the
captured digits. -/
def portMatch (arg : String) : Option String :=
  portMatchAux arg.toList

/-- `args.indexOf(arg)` (first occurrence; every call site passes an
element of the list, so the JavaScript `-1` case cannot arise — our
out-of-list value `length` makes the bounds guard fail just the same). -/
def indexOfStr : List String → String → Nat
  | [], _ => 0
  | a :: rest, x => if a = x then 0 else indexOfStr rest x + 1

/-- The port-extraction loop of `checkPort` (lines 199–218): for each
arg in order, first the bare-integer test, then the `--port[=\s]\d+`
regex, then the `-p`/`--port` flag lookahead via `indexOf`. -/
def findPortAux (allArgs : List String) : List String → Option String
  | [] => none
  | arg :: rest =>
    if isAllDigits arg then some arg
    else
      match portMatch arg with
      | some p => some p
      | none =>
        if arg = "-p" ∨ arg = "--port" then
          let nextIndex := indexOfStr allArgs arg + 1
          match allArgs[nextIndex]? with
          | some nxt =>
            if isAllDigits nxt then some nxt else findPortAux allArgs rest
          | none => findPortAux allArgs rest
        else findPortAux allArgs rest

/-- The first port candidate found in `args`, if any. -/
def findPort (args : List String) : Option String :=
  findPortAux args args

/-- `checkPort` (lines 196–231): extract a port candidate; if present,
`online` iff `lsof -i :port` answers without error and with nonempty
output, otherwise `offline`; with no candidate, `offline`. -/
def checkPort (env : Env) (args : List String) : Status :=
  match findPort args with
  | some port => if lsofHit env port then Status.online else Status.offline
  | none => Status.offline

/-- `checkWithPattern` (lines 178–194): try each ps pattern in order,
resolving `online` on the first hit, falling through to `checkPort`. -/
def checkWithPattern (env : Env) (server : MCPServer) : List String → Status
  | [] => checkPort env server.args
  | p :: rest =>
    if psHit env p then Status.online else checkWithPattern env server rest

/-- `checkServerStatus` (lines 163–238): the liveness prober.  Every
`exec` outcome (including errors) flows through `psHit`/`lsofHit`, so
the function is total and always resolves to a definite status. -/
def checkServerStatus (env : Env) (server : MCPServer) : Status :=
  checkWithPattern env server (patterns server)

/-! ## Lifecycle controller -/

/-- The two pkill signals used by `stopServer`: `-15` and `-9`. -/
inductive Sig where
  | term
  | kill
deriving DecidableEq, Repr

/-- One observable side effect of a lifecycle operation, in order of
occurrence.  `launch cmd` is the background `exec` of the start command;
`signal s target` is `pkill -<s> -f "target"`; `probe r` is one
`checkServerStatus` call and its result; `update s` is the record passed
to `updateServer` for persistence; the toasts carry their titles. -/
inductive Effect where
  | launch (cmd : String)
  | wait (ms : Nat)
  | probe (result : Status)
  | signal (s : Sig) (target : String)
  | update (server : MCPServer)
  | toastSuccess (title : String)
  | toastFailure (title : String)
deriving DecidableEq, Repr

/-- Tail of `stopServer` (lines 330–351): build the offline record,
persist it via `updateServer`, toast; a thrown persistence error is
caught, toasted as a failure and re-thrown. -/
def finishStop (config : MCPServerConfig) (server : MCPServer) (pre : List Effect) :
    List Effect × Except String MCPServerConfig :=
  let updated := { server with status := some Status.offline }
  match updateServer config updated with
  | Except.ok (_, cfg') =>
    (pre ++ [Effect.update updated, Effect.toastSuccess "Server Stopped"],
     Except.ok cfg')
  | Except.error e =>
    (pre ++ [Effect.update updated, Effect.toastFailure "Failed to Stop Server"],
     Except.error e)

/-- `stopServer` (lines 292–352).  `env1` is the OS state at the first
probe, `env2` at the second.  Force path: one `pkill -9` against the
basename, then persist.  Graceful path: `pkill -15`, 500ms, probe; if
`online`, `pkill -9`, 500ms, probe again, warning toast if still
`online`; then persist `status=offline` regardless. -/
def stopServer (env1 env2 : Env) (config : MCPServerConfig) (server : MCPServer)
    (forceStop : Bool) : List Effect × Except String MCPServerConfig :=
  let base := commandBase server.command
  if forceStop then
    finishStop config server [Effect.signal Sig.kill base]
  else
    let st1 := checkServerStatus env1 server
    let pre1 := [Effect.signal Sig.term base, Effect.wait 500, Effect.probe st1]
    if st1 = Status.online then
      let st2 := checkServerStatus env2 server
      let pre2 := pre1 ++ [Effect.signal Sig.kill base, Effect.wait 500, Effect.probe st2]
      if st2 = Status.online then
        finishStop config server (pre2 ++ [Effect.toastFailure "Warning"])
      else
        finishStop config server pre2
    else
      finishStop config server pre1

/-- `startServer` (lines 243–287): background launch, 500ms settle,
probe; on `online` persist `status=online` with
`lastConnectionTime=now` and toast success (a persistence error is
caught, toasted and re-thrown); on `offline` toast the verification
failure, throw, and the catch toasts again and re-throws — no
`updateServer` call is made on that path. -/
def startServer (env : Env) (config : MCPServerConfig) (server : MCPServer)
    (now : String) : List Effect × Except String MCPServerConfig :=
  let launchCmd := server.command ++ " " ++ String.intercalate " " server.args ++ " &"
  let st := checkServerStatus env server
  let pre := [Effect.launch launchCmd, Effect.wait 500, Effect.probe st]
  if st = Status.online then
    let updated :=
      { server with status := some Status.online, lastConnectionTime := some now }
    match updateServer config updated with
    | Except.ok (_, cfg') =>
      (pre ++ [Effect.update updated, Effect.toastSuccess "Server Started"],
       Except.ok cfg')
    | Except.error e =>
      (pre ++ [Effect.update updated, Effect.toastFailure "Failed to Start Server"],
       Except.error e)
  else
    (pre ++ [Effect.toastFailure "Failed to Verify Server",
             Effect.toastFailure "Failed to Start Server"],
     Except.error ("Failed to verify " ++ server.name ++ " is running"))

/-- `restartServer` (lines 357–381): graceful stop, 1000ms settle,
start; an error from either sub-step is caught, toasted as a restart
failure and re-thrown unchanged. -/
def restartServer (env1 env2 env3 : Env) (config : MCPServerConfig)
    (server : MCPServer) (now : String) : List Effect × Except String MCPServerConfig :=
  match stopServer env1 env2 config server false with
  | (t, Except.error e) =>
    (t ++ [Effect.toastFailure "Failed to Restart Server"], Except.error e)
  | (t, Except.ok cfg2) =>
    match startServer env3 cfg2 server now with
    | (t2, Except.error e) =>
      (t ++ [Effect.wait 1000] ++ t2 ++ [Effect.toastFailure "Failed to Restart Server"],
       Except.error e)
    | (t2, Except.ok cfg3) =>
      (t ++ [Effect.wait 1000] ++ t2 ++ [Effect.toastSuccess "Server Restarted"],
       Except.ok cfg3)

/-- Specification-side composition for the restart refinement claim,
following the spec text: "Restart = Stop(graceful) followed by Start; if
Stop fails, Start must not be attempted and the overall result is the
Stop failure." -/
def restartResultSpec (env1 env2 env3 : Env) (config : MCPServerConfig)
    (server : MCPServer) (now : String) : Except String MCPServerConfig :=
  match (stopServer env1 env2 config server false).2 with
  | Except.error e => Except.error e
  | Except.ok cfg2 => (startServer env3 cfg2 server now).2

/-- Number of process launches in an effect trace. -/
def countLaunch : List Effect → Nat
  | [] => 0
  | Effect.launch _ :: rest => countLaunch rest + 1
  | Effect.wait _ :: rest => countLaunch rest
  | Effect.probe _ :: rest => countLaunch rest
  | Effect.signal _ _ :: rest => countLaunch rest
  | Effect.update _ :: rest => countLaunch rest
  | Effect.toastSuccess _ :: rest => countLaunch rest
  | Effect.toastFailure _ :: rest => countLaunch rest

/-- Every query of an OS oracle reports an `exec` error. -/
def allQueriesFail (env : Env) : Prop :=
  (∀ p, (env.psResult p).error = true) ∧ (∀ q, (env.lsofResult q).error = true)

/-! ## Shared concrete fixtures and helper lemmas -/

/-- An OS oracle on which every query reports an `exec` error. -/
def envAllFail : Env := ⟨fun _ => ⟨true, ""⟩, fun _ => ⟨true, ""⟩⟩

/-- An OS oracle on which every query succeeds with nonempty output. -/
def envAllUp : Env := ⟨fun _ => ⟨false, "proc"⟩, fun _ => ⟨false, "proc"⟩⟩

/-- A demo record whose id is its own slug. -/
def srvDemo : MCPServer :=
  ⟨"demo", "demo", "node", ["srv.js"], some Status.offline, none⟩

/-- A registry holding exactly `srvDemo`'s entry. -/
def cfgDemo : MCPServerConfig := ⟨[("demo", ⟨"node", ["srv.js"]⟩)]⟩

theorem validateServer_ok (s : MCPServer) (h1 : s.name ≠ "") (h2 : s.command ≠ "") :
    validateServer s = Except.ok () := by
  simp [validateServer, h1, h2]

theorem updateServer_ok_exists (config : MCPServerConfig) (server : MCPServer)
    (entry : ConfigEntry) (hname : server.name ≠ "") (hcmd : server.command ≠ "")
    (hfound : lookupKey config.mcpServers server.id = some entry) :
    ∃ ret cfg', updateServer config server = Except.ok (ret, cfg') := by
  rw [updateServer, validateServer_ok server hname hcmd]
  rw [hfound]
  by_cases hren : slugify server.name = server.id
  · simp [hren]
  · simp [hren]

theorem updateServer_missing (config : MCPServerConfig) (server : MCPServer)
    (hname : server.name ≠ "") (hcmd : server.command ≠ "")
    (hmissing : lookupKey config.mcpServers server.id = none) :
    updateServer config server =
      Except.error ("Server \"" ++ server.id ++ "\" not found") := by
  rw [updateServer, validateServer_ok server hname hcmd]
  rw [hmissing]

theorem finishStop_ok (config : MCPServerConfig) (server : MCPServer)
    (entry : ConfigEntry) (pre : List Effect)
    (hname : server.name ≠ "") (hcmd : server.command ≠ "")
    (hfound : lookupKey config.mcpServers server.id = some entry) :
    ∃ cfg', finishStop config server pre =
      (pre ++ [Effect.update { server with status := some Status.offline },
               Effect.toastSuccess "Server Stopped"],
       Except.ok cfg') := by
  obtain ⟨ret, cfg', h⟩ :=
    updateServer_ok_exists config { server with status := some Status.offline }
      entry hname hcmd hfound
  exact ⟨cfg', by rw [finishStop, h]⟩

theorem finishStop_missing (config : MCPServerConfig) (server : MCPServer)
    (pre : List Effect) (hname : server.name ≠ "") (hcmd : server.command ≠ "")
    (hmissing : lookupKey config.mcpServers server.id = none) :
    finishStop config server pre =
      (pre ++ [Effect.update { server with status := some Status.offline },
               Effect.toastFailure "Failed to Stop Server"],
       Except.error ("Server \"" ++ server.id ++ "\" not found")) := by
  rw [finishStop,
    updateServer_missing config { server with status := some Status.offline }
      hname hcmd hmissing]

/-! ## Claims -/

/-- The registry for the C1 counterexample: keys `"a"` and `"b"`. -/
def cfgC1 : MCPServerConfig := ⟨[("a", ⟨"cmdA", []⟩), ("b", ⟨"cmdB", ["x"]⟩)]⟩

/-- The update for the C1 counterexample: record `"a"` renamed to `"B"`,
whose slug `"b"` is already taken. -/
def srvC1 : MCPServer := ⟨"a", "B", "newCmd", [], none, none⟩

/-- C1 counterexample.  The claim says a rename whose new slug already
exists is a hard error that leaves the registry unchanged.  On
`cfgC1`/`srvC1` the rename's new slug `"b"` is an existing key, yet
`updateServer` succeeds, deletes key `"a"`, and overwrites the existing
record under `"b"`. -/
theorem rename_collision_not_rejected_cex :
    updateServer cfgC1 srvC1 =
      Except.ok ({ id := "b", name := "B", command := "newCmd", args := [],
                   status := none, lastConnectionTime := none },
        ⟨[("b", ⟨"newCmd", []⟩)]⟩) ∧
    slugify srvC1.name = "b" ∧ srvC1.id ≠ "b" ∧
    lookupKey cfgC1.mcpServers "b" = some ⟨"cmdB", ["x"]⟩ := by
  exact ⟨rfl, rfl, by decide, rfl⟩

/-- C1 (amended): on an update whose new name slugifies to an id
different from the record's current id, `updateServer` succeeds
unconditionally: it deletes the old entry and assigns the record's
command/args under the new slug, overwriting any existing record stored
there; no collision check is performed. -/
theorem updateServer_rename_overwrites (config : MCPServerConfig) (server : MCPServer)
    (entry : ConfigEntry) (hname : server.name ≠ "") (hcmd : server.command ≠ "")
    (hfound : lookupKey config.mcpServers server.id = some entry)
    (hren : slugify server.name ≠ server.id) :
    updateServer config server =
      Except.ok ({ server with id := slugify server.name },
        ⟨setKey (eraseKey config.mcpServers server.id) (slugify server.name)
          ⟨server.command, server.args⟩⟩) := by
  rw [updateServer, validateServer_ok server hname hcmd]
  rw [hfound]
  simp [hren]

/-- C1 witness: the amended theorem evaluated on the counterexample
input. -/
theorem updateServer_rename_overwrites_witness :
    updateServer cfgC1 srvC1 =
      Except.ok ({ id := "b", name := "B", command := "newCmd", args := [],
                   status := none, lastConnectionTime := none },
        ⟨[("b", ⟨"newCmd", []⟩)]⟩) :=
  updateServer_rename_overwrites cfgC1 srvC1 ⟨"cmdA", []⟩
    (by decide) (by decide) rfl (by decide)

/-- C8: adding a record whose name-derived slug is already a registry
key fails with the duplicate error; no `Except.ok` config is produced,
so nothing is inserted or overwritten and nothing is written to disk. -/
theorem add_duplicate_rejected (config : MCPServerConfig) (name command : String)
    (args : List String) (entry : ConfigEntry) (hname : name ≠ "") (hcmd : command ≠ "")
    (hdup : lookupKey config.mcpServers (slugify name) = some entry) :
    addServer config name command args =
      Except.error ("Server with name \"" ++ name ++ "\" already exists") := by
  rw [addServer]
  rw [validateServer_ok ⟨slugify name, name, command, args, some Status.offline, none⟩
    hname hcmd]
  rw [hdup]

/-- C8 witness: adding name `"Demo"` (slug `"demo"`) to a registry that
already holds key `"demo"`. -/
theorem add_duplicate_rejected_witness :
    addServer cfgDemo "Demo" "x" [] =
      Except.error "Server with name \"Demo\" already exists" :=
  add_duplicate_rejected cfgDemo "Demo" "x" [] ⟨"node", ["srv.js"]⟩
    (by decide) (by decide) (by decide)

/-- C2: Stop with `forceStop = true` on a registered, valid record:
the trace is exactly one unconditional `pkill -9` against the command's
basename, then the persistence of the offline record, then the success
toast — no probe effect occurs anywhere, so `checkServerStatus` is never
invoked, and the operation succeeds. -/
theorem force_stop_unconditional (env1 env2 : Env) (config : MCPServerConfig)
    (server : MCPServer) (entry : ConfigEntry)
    (hname : server.name ≠ "") (hcmd : server.command ≠ "")
    (hfound : lookupKey config.mcpServers server.id = some entry) :
    ∃ cfg', stopServer env1 env2 config server true =
      ([Effect.signal Sig.kill (commandBase server.command),
        Effect.update { server with status := some Status.offline },
        Effect.toastSuccess "Server Stopped"],
       Except.ok cfg') := by
  obtain ⟨cfg', h⟩ := finishStop_ok config server entry
    [Effect.signal Sig.kill (commandBase server.command)] hname hcmd hfound
  refine ⟨cfg', ?_⟩
  rw [stopServer]
  simpa using h

/-- C2 witness: force stop of `srvDemo` in registry `cfgDemo`. -/
theorem force_stop_unconditional_witness :
    ∃ cfg', stopServer envAllUp envAllUp cfgDemo srvDemo true =
      ([Effect.signal Sig.kill (commandBase srvDemo.command),
        Effect.update { srvDemo with status := some Status.offline },
        Effect.toastSuccess "Server Stopped"],
       Except.ok cfg') :=
  force_stop_unconditional envAllUp envAllUp cfgDemo srvDemo ⟨"node", ["srv.js"]⟩
    (by decide) (by decide) rfl

/-- C3: graceful Stop of a registered, valid record whose process is
probed online both after the polite signal and after escalation: the
trace is `pkill -15`, settle, one probe, then exactly one `pkill -9`,
settle, exactly one more probe, then the non-fatal warning toast, and
the operation still persists the offline record and succeeds. -/
theorem graceful_stop_escalation (env1 env2 : Env) (config : MCPServerConfig)
    (server : MCPServer) (entry : ConfigEntry)
    (hname : server.name ≠ "") (hcmd : server.command ≠ "")
    (hfound : lookupKey config.mcpServers server.id = some entry)
    (h1 : checkServerStatus env1 server = Status.online)
    (h2 : checkServerStatus env2 server = Status.online) :
    ∃ cfg', stopServer env1 env2 config server false =
      ([Effect.signal Sig.term (commandBase server.command), Effect.wait 500,
        Effect.probe Status.online,
        Effect.signal Sig.kill (commandBase server.command), Effect.wait 500,
        Effect.probe Status.online,
        Effect.toastFailure "Warning",
        Effect.update { server with status := some Status.offline },
        Effect.toastSuccess "Server Stopped"],
       Except.ok cfg') := by
  obtain ⟨cfg', h⟩ := finishStop_ok config server entry
    ([Effect.signal Sig.term (commandBase server.command), Effect.wait 500,
      Effect.probe Status.online,
      Effect.signal Sig.kill (commandBase server.command), Effect.wait 500,
      Effect.probe Status.online] ++ [Effect.toastFailure "Warning"])
    hname hcmd hfound
  refine ⟨cfg', ?_⟩
  rw [stopServer]
  simp only [h1, h2]
  simpa using h

/-- C3 witness: graceful stop of `srvDemo` under an oracle on which the
process-table query always reports a live match. -/
theorem graceful_stop_escalation_witness :
    ∃ cfg', stopServer envAllUp envAllUp cfgDemo srvDemo false =
      ([Effect.signal Sig.term (commandBase srvDemo.command), Effect.wait 500,
        Effect.probe Status.online,
        Effect.signal Sig.kill (commandBase srvDemo.command), Effect.wait 500,
        Effect.probe Status.online,
        Effect.toastFailure "Warning",
        Effect.update { srvDemo with status := some Status.offline },
        Effect.toastSuccess "Server Stopped"],
       Except.ok cfg') :=
  graceful_stop_escalation envAllUp envAllUp cfgDemo srvDemo ⟨"node", ["srv.js"]⟩
    (by decide) (by decide) rfl (by decide) (by decide)

/-- C10: `stopServer` on a valid record whose id is not a registry key
still starts its trace with a termination signal against the command's
basename (`pkill -9` when forced, `pkill -15` otherwise), and only
afterwards fails with the not-found error raised by the persistence
step — so the OS-level signal side effect happens even though the
operation reports failure and no updated registry is produced. -/
theorem stop_missing_id_signals_before_failure (env1 env2 : Env)
    (config : MCPServerConfig) (server : MCPServer) (forceStop : Bool)
    (hname : server.name ≠ "") (hcmd : server.command ≠ "")
    (hmissing : lookupKey config.mcpServers server.id = none) :
    (stopServer env1 env2 config server forceStop).2 =
        Except.error ("Server \"" ++ server.id ++ "\" not found") ∧
    ∃ rest, (stopServer env1 env2 config server forceStop).1 =
        Effect.signal (if forceStop then Sig.kill else Sig.term)
          (commandBase server.command) :: rest := by
  cases forceStop with
  | true =>
    rw [stopServer]
    simp only [if_true]
    rw [finishStop_missing config server _ hname hcmd hmissing]
    exact ⟨rfl, ⟨_, rfl⟩⟩
  | false =>
    rw [stopServer]
    simp only [Bool.false_eq_true, if_false]
    by_cases h1 : checkServerStatus env1 server = Status.online
    · by_cases h2 : checkServerStatus env2 server = Status.online
      · simp only [h1, h2, if_pos rfl]
        rw [finishStop_missing config server _ hname hcmd hmissing]
        exact ⟨rfl, ⟨_, rfl⟩⟩
      · simp only [h1, if_pos rfl, if_neg h2]
        rw [finishStop_missing config server _ hname hcmd hmissing]
        exact ⟨rfl, ⟨_, rfl⟩⟩
    · simp only [if_neg h1]
      rw [finishStop_missing config server _ hname hcmd hmissing]
      exact ⟨rfl, ⟨_, rfl⟩⟩

/-- C10 witness: force stop of `srvDemo` against an empty registry. -/
theorem stop_missing_id_signals_before_failure_witness :
    (stopServer envAllFail envAllFail ⟨[]⟩ srvDemo true).2 =
        Except.error "Server \"demo\" not found" ∧
    ∃ rest, (stopServer envAllFail envAllFail ⟨[]⟩ srvDemo true).1 =
        Effect.signal Sig.kill (commandBase srvDemo.command) :: rest :=
  stop_missing_id_signals_before_failure envAllFail envAllFail ⟨[]⟩ srvDemo true
    (by decide) (by decide) rfl

theorem countLaunch_append (l1 l2 : List Effect) :
    countLaunch (l1 ++ l2) = countLaunch l1 + countLaunch l2 := by
  induction l1 with
  | nil => simp [countLaunch]
  | cons a l ih =>
    cases a with
    | launch cmd => simp [countLaunch, ih]; omega
    | wait ms => simp [countLaunch, ih]
    | probe r => simp [countLaunch, ih]
    | signal s target => simp [countLaunch, ih]
    | update srv => simp [countLaunch, ih]
    | toastSuccess ti => simp [countLaunch, ih]
    | toastFailure ti => simp [countLaunch, ih]

theorem countLaunch_finishStop (config : MCPServerConfig) (server : MCPServer)
    (pre : List Effect) :
    countLaunch (finishStop config server pre).1 = countLaunch pre := by
  rw [finishStop]
  cases updateServer config { server with status := some Status.offline } with
  | ok v => rcases v with ⟨ret, cfg'⟩; simp [countLaunch_append, countLaunch]
  | error e => simp [countLaunch_append, countLaunch]

theorem stop_no_launch (env1 env2 : Env) (config : MCPServerConfig)
    (server : MCPServer) (forceStop : Bool) :
    countLaunch (stopServer env1 env2 config server forceStop).1 = 0 := by
  cases forceStop with
  | true =>
    rw [stopServer]
    simp [countLaunch_finishStop, countLaunch]
  | false =>
    rw [stopServer]
    by_cases h1 : checkServerStatus env1 server = Status.online
    · by_cases h2 : checkServerStatus env2 server = Status.online
      · simp [h1, h2, countLaunch_finishStop, countLaunch]
      · simp [h1, h2, countLaunch_finishStop, countLaunch]
    · simp [h1, countLaunch_finishStop, countLaunch]

/-- C5: the result of `restartServer` is exactly the composition
"graceful Stop, then Start on the stopped registry" described by
`restartResultSpec` — a Stop error propagates as the restart error and a
Start error propagates as the restart error; and the restart trace
contains a process launch only via the Start sub-step, so when Stop
fails no launch happens at all: Start is never invoked. -/
theorem restart_is_stop_then_start (env1 env2 env3 : Env) (config : MCPServerConfig)
    (server : MCPServer) (now : String) :
    (restartServer env1 env2 env3 config server now).2 =
      restartResultSpec env1 env2 env3 config server now ∧
    countLaunch (restartServer env1 env2 env3 config server now).1 =
      (match (stopServer env1 env2 config server false).2 with
       | Except.error _ => 0
       | Except.ok cfg2 => countLaunch (startServer env3 cfg2 server now).1) := by
  have ht : countLaunch (stopServer env1 env2 config server false).1 = 0 :=
    stop_no_launch env1 env2 config server false
  rcases hstop : stopServer env1 env2 config server false with ⟨t, r⟩
  rw [hstop] at ht
  cases r with
  | error e =>
    rw [restartServer, restartResultSpec, hstop]
    simp [ht, countLaunch_append, countLaunch]
  | ok cfg2 =>
    rcases hstart : startServer env3 cfg2 server now with ⟨t2, r2⟩
    cases r2 with
    | error e =>
      rw [restartServer, restartResultSpec, hstop]
      simp [hstart, ht, countLaunch_append, countLaunch]
    | ok cfg3 =>
      rw [restartServer, restartResultSpec, hstop]
      simp [hstart, ht, countLaunch_append, countLaunch]

/-- C4: every record `startServer` passes to `updateServer` carries
`status=online` and `lastConnectionTime=now`, and such a persistence
call happens only when the post-launch probe reported online; when the
probe reports offline the operation performs no persistence call at all
(its full trace is launch, settle, probe, two failure toasts) and fails,
so the persisted registry is unchanged by a failed Start. -/
theorem start_requires_verified_probe (env : Env) (config : MCPServerConfig)
    (server : MCPServer) (now : String) :
    (∀ s, Effect.update s ∈ (startServer env config server now).1 →
        checkServerStatus env server = Status.online ∧
        s.status = some Status.online ∧ s.lastConnectionTime = some now) ∧
    (checkServerStatus env server = Status.offline →
      startServer env config server now =
        ([Effect.launch
            (server.command ++ " " ++ String.intercalate " " server.args ++ " &"),
          Effect.wait 500, Effect.probe Status.offline,
          Effect.toastFailure "Failed to Verify Server",
          Effect.toastFailure "Failed to Start Server"],
         Except.error ("Failed to verify " ++ server.name ++ " is running"))) := by
  constructor
  · intro s hs
    rw [startServer] at hs
    by_cases hst : checkServerStatus env server = Status.online
    · rw [hst] at hs
      simp only [if_pos rfl] at hs
      cases hud : updateServer config
          { server with status := some Status.online, lastConnectionTime := some now } with
      | ok v =>
        rcases v with ⟨ret, cfg'⟩
        rw [hud] at hs
        simp at hs
        subst hs
        exact ⟨hst, rfl, rfl⟩
      | error e =>
        rw [hud] at hs
        simp at hs
        subst hs
        exact ⟨hst, rfl, rfl⟩
    · rw [if_neg hst] at hs
      simp at hs
  · intro hoff
    rw [startServer, hoff]
    simp

/-- C4 witness: a failed start under an oracle on which no query ever
matches. -/
theorem start_requires_verified_probe_witness :
    startServer envAllFail cfgDemo srvDemo "2025-01-01T00:00:00.000Z" =
      ([Effect.launch "node srv.js &", Effect.wait 500,
        Effect.probe Status.offline,
        Effect.toastFailure "Failed to Verify Server",
        Effect.toastFailure "Failed to Start Server"],
       Except.error "Failed to verify demo is running") :=
  (start_requires_verified_probe envAllFail cfgDemo srvDemo
    "2025-01-01T00:00:00.000Z").2 (by decide)

/-- C6: the prober's port extraction yields `8080` for
`["--port=8080"]`, `["-p", "8080"]` and `["8080"]`; for `["--verbose"]`
no candidate is found, and with no process-table match either the probe
resolves to offline. -/
theorem port_extraction_cases :
    findPort ["--port=8080"] = some "8080" ∧
    findPort ["-p", "8080"] = some "8080" ∧
    findPort ["8080"] = some "8080" ∧
    findPort ["--verbose"] = none ∧
    checkServerStatus envAllFail ⟨"srv", "srv", "server", ["--verbose"], none, none⟩ =
      Status.offline := by
  exact ⟨by decide, by decide, by decide, by decide, by decide⟩

/-- C7: the liveness prober is total — for every oracle outcome it
returns one of the two statuses (it cannot throw: every `exec` error
flows through the `!error && …` truthiness tests), and when every query
reports an error every internal path resolves to offline. -/
theorem prober_total (env : Env) (server : MCPServer) :
    (checkServerStatus env server = Status.online ∨
     checkServerStatus env server = Status.offline) ∧
    (allQueriesFail env → checkServerStatus env server = Status.offline) := by
  constructor
  · cases h : checkServerStatus env server
    · exact Or.inl rfl
    · exact Or.inr rfl
  · intro h
    have hps : ∀ p, psHit env p = false := by
      intro p
      simp [psHit, h.1 p]
    have hlsof : ∀ q, lsofHit env q = false := by
      intro q
      simp [lsofHit, h.2 q]
    rw [checkServerStatus]
    simp only [patterns, checkWithPattern, hps, if_false, Bool.false_eq_true]
    rw [checkPort]
    cases hfp : findPort server.args with
    | some port => simp [hlsof]
    | none => simp

/-- C7 witness: the prober on an oracle on which every query errors. -/
theorem prober_total_witness :
    checkServerStatus envAllFail srvDemo = Status.offline :=
  (prober_total envAllFail srvDemo).2 ⟨fun _ => rfl, fun _ => rfl⟩

theorem setKey_fresh (l : List (String × ConfigEntry)) (k : String) (v : ConfigEntry)
    (h : lookupKey l k = none) : setKey l k v = l ++ [(k, v)] := by
  induction l with
  | nil => rfl
  | cons a rest ih =>
    rcases a with ⟨k', v'⟩
    rw [lookupKey] at h
    by_cases hk : k' = k
    · rw [if_pos hk] at h
      exact absurd h (Option.some_ne_none v')
    · rw [if_neg hk] at h
      rw [setKey, if_neg hk, ih h]
      simp

/-- C9: `configToServers` yields one record per config key, each with
`name` equal to the key (the id) and `status=offline`; and since a
successful `addServer` persists only `{command, args}` under the slug
key, reloading after an add yields a record whose `name` is the slug —
the human-readable name supplied at add time is replaced by it. -/
theorem configToServers_name_is_key :
    (∀ c : MCPServerConfig, (configToServers c).length = c.mcpServers.length ∧
      ∀ s ∈ configToServers c, s.name = s.id ∧ s.status = some Status.offline) ∧
    (∀ (config : MCPServerConfig) (name command : String) (args : List String),
      name ≠ "" → command ≠ "" →
      lookupKey config.mcpServers (slugify name) = none →
      ∃ cfg', addServer config name command args =
          Except.ok ({ id := slugify name, name := name, command := command,
                       args := args, status := some Status.offline,
                       lastConnectionTime := none }, cfg') ∧
        ({ id := slugify name, name := slugify name, command := command,
           args := args, status := some Status.offline,
           lastConnectionTime := none } : MCPServer) ∈ configToServers cfg') := by
  constructor
  · intro c
    constructor
    · simp [configToServers]
    · intro s hs
      simp only [configToServers, List.mem_map] at hs
      obtain ⟨kv, hkv, rfl⟩ := hs
      exact ⟨rfl, rfl⟩
  · intro config name command args hname hcmd hfresh
    refine ⟨⟨setKey config.mcpServers (slugify name) ⟨command, args⟩⟩, ?_, ?_⟩
    · rw [addServer]
      rw [validateServer_ok
        { id := slugify name, name := name, command := command, args := args,
          status := some Status.offline, lastConnectionTime := none } hname hcmd]
      rw [hfresh]
    · rw [show setKey config.mcpServers (slugify name) ⟨command, args⟩ =
          config.mcpServers ++ [(slugify name, ⟨command, args⟩)] from
        setKey_fresh _ _ _ hfresh]
      exact List.mem_map_of_mem _ (List.mem_append_right _ (List.mem_cons_self _ _))

/-- C9 witness: adding `"My Server"` to an empty registry and reloading
yields the record named `"my-server"`. -/
theorem configToServers_name_is_key_witness :
    ∃ cfg', addServer ⟨[]⟩ "My Server" "npx" [] =
        Except.ok ({ id := "my-server", name := "My Server", command := "npx",
                     args := [], status := some Status.offline,
                     lastConnectionTime := none }, cfg') ∧
      ({ id := "my-server", name := "my-server", command := "npx", args := [],
         status := some Status.offline, lastConnectionTime := none } : MCPServer) ∈
        configToServers cfg' :=
  configToServers_name_is_key.2 ⟨[]⟩ "My Server" "npx" [] (by decide) (by decide) rfl
